import Mathlib

/-
  Verification development for src/StrengthStandards.py.

  The file embeds the two core components of the program:
  * the HTML-table state machine `HTMLTableParser` (handle_starttag,
    handle_data, handle_endtag), modelled as a step function over the
    stream of tag/data events that Python's html.parser delivers to it;
  * the tier-lookup function `find_match` (lines 137-149 of the source),
    modelled with explicit Python indexing, rounding and int() semantics.

  Python behaviours are modelled explicitly:
  * `pyRound10` is round(n, -1) on a non-negative int: round to the
    nearest multiple of 10, ties to the even multiple (banker's rounding);
  * `pyIndex` is list subscription, with negative indices counting from
    the end and out-of-range access (an IndexError) modelled as `none`;
  * `pyIntCore` is int(str): strip ASCII whitespace, optional sign, then
    a non-empty run of decimal digits, ValueError modelled as `none`;
  * fallible code paths (uncaught exceptions) are modelled as `none`.
-/

/-- ASCII decimal digit, as Python's int() accepts (codes 48..57). -/
def isDigitC (c : Char) : Bool := 48 ≤ c.toNat && c.toNat ≤ 57

/-- ASCII whitespace stripped by Python's str.strip() and int():
space, tab, newline, vertical tab, form feed, carriage return. -/
def isSpaceC (c : Char) : Bool :=
  c.toNat = 32 || c.toNat = 9 || c.toNat = 10 || c.toNat = 11 ||
  c.toNat = 12 || c.toNat = 13

/-- Value of a run of decimal digit characters. -/
def digitsVal (l : List Char) : Nat :=
  l.foldl (fun a c => 10 * a + (c.toNat - 48)) 0

/-- Strip leading and trailing whitespace from a character list. -/
def trimL (l : List Char) : List Char :=
  ((l.dropWhile isSpaceC).reverse.dropWhile isSpaceC).reverse

/-- Python str.strip() on a string (ASCII whitespace). -/
def pyStrip (s : String) : String := ⟨trimL s.data⟩

/-- Python sep.join(parts). -/
def sepJoin (sep : String) : List String → String
  | [] => ""
  | [x] => x
  | x :: y :: xs => x ++ sep ++ sepJoin sep (y :: xs)

/-- Python int() applied to a character list: strip whitespace, optional
sign (codes 43 and 45), then a non-empty digit run; ValueError is `none`. -/
def pyIntCore (l : List Char) : Option Int :=
  match trimL l with
  | [] => none
  | c :: rest =>
    if c.toNat = 43 then
      if !rest.isEmpty && rest.all isDigitC then some ((digitsVal rest : Nat) : Int)
      else none
    else if c.toNat = 45 then
      if !rest.isEmpty && rest.all isDigitC then some (-((digitsVal rest : Nat) : Int))
      else none
    else if (c :: rest).all isDigitC then some ((digitsVal (c :: rest) : Nat) : Int)
    else none

/-- Source line 143: `rep_weight = int(entry[:3])` — int() of the first
three characters of the cell (Python slicing takes at most 3). -/
def parseCell (entry : String) : Option Int := pyIntCore (entry.data.take 3)

/-- Source line 138: `int(round(user_weight, -1))` for a non-negative
integer weight. Python 3 round() rounds to the nearest multiple of 10
and resolves ties (last digit 5) to the even multiple of 10. -/
def pyRound10 (n : Nat) : Nat :=
  if n % 10 < 5 then n - n % 10
  else if 5 < n % 10 then n - n % 10 + 10
  else if (n - 5) / 10 % 2 = 0 then n - 5 else n + 5

/-- Python list subscription `l[i]`: non-negative indices from the front,
negative indices from the end; IndexError modelled as `none`. -/
def pyIndex {α : Type} (l : List α) (i : Int) : Option α :=
  if 0 ≤ i then l.get? i.toNat
  else if 0 ≤ (l.length : Int) + i then l.get? ((l.length : Int) + i).toNat
  else none

/-- Source line 139: `row_index = user_weight // 10 + 1 - 12` applied to
the rounded weight (floor division of non-negative ints is Nat division). -/
def rowIdx (uw : Nat) : Int := ((pyRound10 uw / 10 : Nat) : Int) + 1 - 12

/-- Source line 140: `row = master_table[gender][row_index]`. -/
def selectRow (mt : List (List (List String))) (gender uw : Nat) :
    Option (List String) :=
  (mt.get? gender).bind fun tbl => pyIndex tbl (rowIdx uw)

/-- Source lines 141-147: the accumulation loop
`for entry in row[1:]`, parsing each cell and stopping (inclusively)
at the first threshold `>= one_rep_max`; a ValueError while parsing a
consumed cell aborts the call (`none`). -/
def walkRow (cells : List String) (orm : Int) : Option (List Int) :=
  match cells with
  | [] => some []
  | c :: rest =>
    match parseCell c with
    | none => none
    | some t =>
      if orm ≤ t then some [t]
      else (walkRow rest orm).map (fun w => t :: w)

/-- The accumulated threshold list (`weights` in the source) for a given
master table, gender, body weight and one-rep max: row selection
(lines 138-140) followed by the walk (lines 141-147). -/
def rowWeights (mt : List (List (List String))) (gender uw : Nat)
    (orm : Int) : Option (List Int) :=
  (selectRow mt gender uw).bind fun row => walkRow (row.drop 1) orm

/-- Source line 148's header access: `master_table[gender][0]`. -/
def headerRow (mt : List (List (List String))) (gender : Nat) :
    Option (List String) :=
  (mt.get? gender).bind fun tbl => tbl.get? 0

/-- Source lines 137-149, `find_match`: returns the pair
`[XP_level, weights[-1]]` where
`XP_level = master_table[gender][0][len(weights) - 1]` (line 148, Python
indexing, so `len(weights) - 1` is computed in the integers and can be
negative) and `weights[-1]` is the last accumulated threshold (line 149,
IndexError on an empty list modelled as `none`). -/
def find_match (mt : List (List (List String))) (gender uw : Nat)
    (orm : Int) : Option (String × Int) :=
  match rowWeights mt gender uw orm with
  | none => none
  | some weights =>
    match headerRow mt gender with
    | none => none
    | some header =>
      match pyIndex header ((weights.length : Int) - 1), weights.getLast? with
      | some xp, some goal => some (xp, goal)
      | _, _ => none

/-- Modelled from the spec: the TierResult record
{current tier label, next tier label, next-tier threshold weight}.
The next tier label is optional ("absent/undefined if the walk exhausted
the row"). -/
structure TierResult where
  currentTier : String
  nextTier : Option String
  nextGoal : Int
deriving DecidableEq

/-- The source's `find_match` returns only the pair
`[XP_level, weights[-1]]` (line 149); it computes no next-tier label, so
its result viewed as a spec TierResult always carries `nextTier := none`. -/
def toTierResult (p : String × Int) : TierResult :=
  ⟨p.1, none, p.2⟩

/-- Modelled from the claim wording for C5: the integer denoted by the
first maximal run of digit characters at the start of the cell. -/
def leadingRunInt (s : String) : Option Nat :=
  let ds := s.data.takeWhile isDigitC
  if ds.isEmpty then none else some (digitsVal ds)

/-- Spec-side helper for C3: all cells of a row parsed in order,
failing if any cell fails to parse. -/
def parseAll : List String → Option (List Int)
  | [] => some []
  | c :: cs =>
    match parseCell c, parseAll cs with
    | some t, some ts => some (t :: ts)
    | _, _ => none

/-- The male example table from the source comment (lines 169-189):
header row followed by twenty data rows for buckets 120..310. -/
def exTableM : List (List String) :=
  [["BW", "Beg.", "Nov.", "Int.", "Adv.", "Elite"],
   ["120", "67 x0.56", "101 x0.84", "143 x1.19", "193 x1.61", "247 x2.06"],
   ["130", "77 x0.59", "112 x0.87", "157 x1.21", "209 x1.61", "265 x2.04"],
   ["140", "86 x0.62", "124 x0.89", "171 x1.22", "225 x1.6", "283 x2.02"],
   ["150", "96 x0.64", "135 x0.9", "184 x1.22", "240 x1.6", "300 x2"],
   ["160", "105 x0.66", "146 x0.91", "196 x1.23", "254 x1.59", "316 x1.97"],
   ["170", "114 x0.67", "157 x0.92", "209 x1.23", "268 x1.58", "332 x1.95"],
   ["180", "123 x0.68", "167 x0.93", "221 x1.23", "282 x1.56", "347 x1.93"],
   ["190", "132 x0.69", "177 x0.93", "232 x1.22", "295 x1.55", "361 x1.9"],
   ["200", "140 x0.7", "187 x0.94", "244 x1.22", "307 x1.54", "375 x1.88"],
   ["210", "149 x0.71", "197 x0.94", "255 x1.21", "320 x1.52", "389 x1.85"],
   ["220", "157 x0.71", "206 x0.94", "265 x1.21", "332 x1.51", "402 x1.83"],
   ["230", "165 x0.72", "216 x0.94", "276 x1.2", "343 x1.49", "415 x1.8"],
   ["240", "173 x0.72", "225 x0.94", "286 x1.19", "355 x1.48", "427 x1.78"],
   ["250", "181 x0.72", "233 x0.93", "296 x1.18", "366 x1.46", "439 x1.76"],
   ["260", "188 x0.72", "242 x0.93", "306 x1.18", "377 x1.45", "451 x1.74"],
   ["270", "196 x0.72", "250 x0.93", "315 x1.17", "387 x1.43", "463 x1.71"],
   ["280", "203 x0.73", "259 x0.92", "324 x1.16", "397 x1.42", "474 x1.69"],
   ["290", "210 x0.72", "267 x0.92", "333 x1.15", "407 x1.41", "485 x1.67"],
   ["300", "217 x0.72", "275 x0.92", "342 x1.14", "417 x1.39", "496 x1.65"],
   ["310", "224 x0.72", "283 x0.91", "351 x1.13", "427 x1.38", "506 x1.63"]]

/-- A master table holding the male example table at gender index 0. -/
def exMaster : List (List (List String)) := [exTableM]

/-
  The HTML table extractor (source lines 15-77).

  Python's html.parser delivers the document to HTMLTableParser as a
  stream of callbacks in document order; we model that stream as a list
  of events. With the default configuration `decode_html_entities=False`
  the handle_charref callback does nothing (lines 51-55), so character
  references produce no event here.
-/

/-- One markup event as delivered by the streaming tokenizer:
a start tag, an end tag, or a character-data fragment. -/
inductive HEvent where
  | startTag (tag : String)
  | endTag (tag : String)
  | data (s : String)
deriving DecidableEq

/-- The mutable state of HTMLTableParser (source lines 30-35):
the two cell flags and the three buffers, plus the output list. -/
structure PState where
  in_td : Bool
  in_th : Bool
  current_table : List (List String)
  current_row : List String
  current_cell : List String
  tables : List (List (List String))
deriving DecidableEq

/-- Source lines 37-44, `handle_starttag`: two independent flag sets. -/
def handle_starttag (s : PState) (tag : String) : PState :=
  let s1 := if tag = "td" then { s with in_td := true } else s
  if tag = "th" then { s1 with in_th := true } else s1

/-- Source lines 46-49, `handle_data`: while inside a td or th cell,
append the stripped fragment to the cell buffer. -/
def handle_data (s : PState) (d : String) : PState :=
  if s.in_td || s.in_th then
    { s with current_cell := s.current_cell ++ [pyStrip d] }
  else s

/-- Source lines 57-77, `handle_endtag`: reset the matching flag, then
on a cell tag join the buffered fragments with the separator, strip, and
append to the row; on a row tag append the row to the table; on a table
tag append the table to the output. -/
def handle_endtag (sep : String) (s : PState) (tag : String) : PState :=
  let s1 :=
    if tag = "td" then { s with in_td := false }
    else if tag = "th" then { s with in_th := false }
    else s
  if tag = "td" || tag = "th" then
    { s1 with
      current_row := s1.current_row ++ [pyStrip (sepJoin sep s1.current_cell)],
      current_cell := [] }
  else if tag = "tr" then
    { s1 with
      current_table := s1.current_table ++ [s1.current_row],
      current_row := [] }
  else if tag = "table" then
    { s1 with
      tables := s1.tables ++ [s1.current_table],
      current_table := [] }
  else s1

/-- Dispatch one event to the matching callback. -/
def stepEvent (sep : String) (s : PState) : HEvent → PState
  | HEvent.startTag t => handle_starttag s t
  | HEvent.endTag t => handle_endtag sep s t
  | HEvent.data d => handle_data s d

/-- Feed a whole event stream to the parser state machine. -/
def runEvents (sep : String) (s : PState) (evs : List HEvent) : PState :=
  evs.foldl (stepEvent sep) s

/-- The freshly constructed parser state (source lines 19-35, with the
default separator handled as the `sep` argument of `runEvents`). -/
def initPState : PState := ⟨false, false, [], [], [], []⟩

/-- Modelled from the claim wording for C8: the cell text the spec
describes — all raw fragments joined by the separator, then trimmed
(with no per-fragment strip). -/
def specCellText (sep : String) (frags : List String) : String :=
  pyStrip (sepJoin sep frags)

/-
  Helper lemmas (shared; none of these is a claim theorem).
-/

/-- A digit character (code 48..57) is not whitespace. -/
theorem isDigitC_not_space {c : Char} (h : isDigitC c = true) :
    isSpaceC c = false := by
  simp only [isDigitC, Bool.and_eq_true, decide_eq_true_eq] at h
  simp only [isSpaceC, Bool.or_eq_false_iff, decide_eq_false_iff_not]
  omega

/-- A whitespace character is not a digit. -/
theorem isSpaceC_not_digit {c : Char} (h : isSpaceC c = true) :
    isDigitC c = false := by
  simp only [isSpaceC, Bool.or_eq_true, decide_eq_true_eq] at h
  simp only [isDigitC, Bool.and_eq_false_iff, decide_eq_false_iff_not]
  omega

/-- The code of a digit character lies in 48..57. -/
theorem isDigitC_toNat {c : Char} (h : isDigitC c = true) :
    48 ≤ c.toNat ∧ c.toNat ≤ 57 := by
  simpa [isDigitC] using h

/-- The walk's accumulated list never gets shorter as the one-rep max
grows: a threshold below the smaller bound is below the larger one. -/
theorem walkRow_len_mono (cells : List String) {m1 m2 : Int} (hm : m1 ≤ m2)
    {w1 w2 : List Int} (h1 : walkRow cells m1 = some w1)
    (h2 : walkRow cells m2 = some w2) : w1.length ≤ w2.length := by
  induction cells generalizing w1 w2 with
  | nil =>
    simp only [walkRow, Option.some.injEq] at h1 h2
    simp [← h1, ← h2]
  | cons c cs ih =>
    simp only [walkRow] at h1 h2
    cases hp : parseCell c with
    | none => simp [hp] at h1
    | some t =>
      simp only [hp] at h1 h2
      by_cases hc1 : m1 ≤ t
      · rw [if_pos hc1] at h1
        by_cases hc2 : m2 ≤ t
        · rw [if_pos hc2] at h2
          simp only [Option.some.injEq] at h1 h2
          simp [← h1, ← h2]
        · rw [if_neg hc2] at h2
          cases hw : walkRow cs m2 with
          | none => simp [hw] at h2
          | some w2' =>
            simp only [hw, Option.map_some', Option.some.injEq] at h2
            simp only [Option.some.injEq] at h1
            simp [← h1, ← h2]
      · have hc2 : ¬ m2 ≤ t := fun hle => hc1 (le_trans hm hle)
        rw [if_neg hc1] at h1
        rw [if_neg hc2] at h2
        cases hw1 : walkRow cs m1 with
        | none => simp [hw1] at h1
        | some w1' =>
          cases hw2 : walkRow cs m2 with
          | none => simp [hw2] at h2
          | some w2' =>
            simp only [hw1, hw2, Option.map_some', Option.some.injEq] at h1 h2
            simp only [← h1, ← h2, List.length_cons]
            exact Nat.succ_le_succ (ih hw1 hw2)

/-
  Claim theorems. Each claim of the specification is settled below;
  corrected claims carry a concrete counterexample and the amended
  statement proved in general.
-/

/-- Claim C1, counterexample. At the example table with bodyWeight 150
and oneRepMax 140 the walk stops early (3 thresholds accumulated out of
5 threshold cells), so the claim requires the result to carry
nextTier = header label at index 3 = "Int."; but `find_match` returns
only the pair ("Nov.", 184) and computes no next-tier label at all, so
the result viewed as a TierResult has `nextTier = none`. -/
theorem claim_C1_counterexample :
    rowWeights exMaster 0 150 140 = some [96, 135, 184] ∧
    (selectRow exMaster 0 150).map (fun r => (r.drop 1).length) = some 5 ∧
    (find_match exMaster 0 150 140).map toTierResult =
      some ⟨"Nov.", none, 184⟩ ∧
    (none : Option String) ≠ some "Int." :=
  ⟨rfl, rfl, rfl, by decide⟩

/-- Claim C1, amended: whenever the selected data row yields a non-empty
accumulated list, the result's currentTier is the header-row label at
index (count of accumulated thresholds) - 1 and its nextGoal is the last
accumulated threshold; the resolver never reports a nextTier (viewed as
a TierResult its next-tier field is always absent, whether or not the
walk stopped early). -/
theorem claim_C1_amended (mt : List (List (List String))) (gender uw : Nat)
    (orm : Int) (weights : List Int) (header : List String)
    (hw : rowWeights mt gender uw orm = some weights)
    (hne : weights ≠ [])
    (hh : headerRow mt gender = some header)
    (hlt : weights.length - 1 < header.length) :
    (find_match mt gender uw orm).map toTierResult =
      some ⟨header.get ⟨weights.length - 1, hlt⟩, none, weights.getLast hne⟩ := by
  unfold find_match
  simp only [hw, hh]
  have hpos : 1 ≤ weights.length := by
    cases weights with
    | nil => exact absurd rfl hne
    | cons a l => simp
  have htn : ((weights.length : Int) - 1).toNat = weights.length - 1 := by
    omega
  have hidx : pyIndex header ((weights.length : Int) - 1) =
      some (header.get ⟨weights.length - 1, hlt⟩) := by
    unfold pyIndex
    rw [if_pos (by omega), htn, List.get?_eq_get hlt]
  have hlast : weights.getLast? = some (weights.getLast hne) :=
    List.getLast?_eq_getLast weights hne
  simp only [hidx, hlast]
  rfl

/-- Claim C1, witness: the amended theorem applied at the example table
with bodyWeight 150 and oneRepMax 140. -/
theorem claim_C1_witness :
    (find_match exMaster 0 150 140).map toTierResult =
      some ⟨"Nov.", none, 184⟩ := by
  have h := claim_C1_amended exMaster 0 150 140 [96, 135, 184]
    ["BW", "Beg.", "Nov.", "Int.", "Adv.", "Elite"] rfl (by decide) rfl
    (by decide)
  simpa using h

/-- Claim C2, counterexample. On the example table, bodyWeight 150 with
oneRepMax 140 yields current tier "Nov." (not "Int.") and with
oneRepMax 500 yields current tier "Adv." (not "Elite"); no next tier is
returned in either case. -/
theorem claim_C2_counterexample :
    find_match exMaster 0 150 140 = some ("Nov.", 184) ∧
    (find_match exMaster 0 150 140).map Prod.fst ≠ some "Int." ∧
    find_match exMaster 0 150 500 = some ("Adv.", 300) ∧
    (find_match exMaster 0 150 500).map Prod.fst ≠ some "Elite" :=
  ⟨rfl, by decide, rfl, by decide⟩

/-- Claim C2, amended: on the example table with bodyWeight 150, the
resolver returns currentTier "Nov." and nextGoal 184 for oneRepMax 140,
and currentTier "Adv." and nextGoal 300 for oneRepMax 500 (the five
thresholds being exhausted); in both cases no next tier is reported. -/
theorem claim_C2_amended :
    (find_match exMaster 0 150 140).map toTierResult =
      some ⟨"Nov.", none, 184⟩ ∧
    rowWeights exMaster 0 150 500 = some [96, 135, 184, 240, 300] ∧
    (find_match exMaster 0 150 500).map toTierResult =
      some ⟨"Adv.", none, 300⟩ :=
  ⟨rfl, rfl, rfl⟩

/-- Claim C3, confirmed: the walk accumulates the parsed thresholds in
order, stopping inclusively at the first threshold at or above the
one-rep max (that threshold is still recorded), and consumes the whole
row when no threshold reaches the one-rep max - the accumulated list is
exactly the prefix of thresholds below the bound followed by the first
threshold at or above it, if any. -/
theorem claim_C3 (cells : List String) (ts : List Int) (orm : Int)
    (h : parseAll cells = some ts) :
    walkRow cells orm =
      some (ts.takeWhile (fun t => decide (t < orm)) ++
        (ts.dropWhile (fun t => decide (t < orm))).take 1) := by
  induction cells generalizing ts with
  | nil =>
    simp only [parseAll, Option.some.injEq] at h
    simp [walkRow, ← h]
  | cons c cs ih =>
    simp only [parseAll] at h
    cases hp : parseCell c with
    | none => simp [hp] at h
    | some t =>
      cases hr : parseAll cs with
      | none => simp [hp, hr] at h
      | some ts' =>
        simp only [hp, hr, Option.some.injEq] at h
        subst h
        by_cases hle : orm ≤ t
        · have hd : decide (t < orm) = false := by
            simp only [decide_eq_false_iff_not]
            omega
          simp [walkRow, hp, if_pos hle, List.takeWhile_cons, List.dropWhile_cons, hd]
        · have hd : decide (t < orm) = true := by
            simp only [decide_eq_true_eq]
            omega
          simp [walkRow, hp, if_neg hle, ih ts' hr, List.takeWhile_cons,
            List.dropWhile_cons, hd]

/-- Claim C3, witness: the walk over the bodyWeight-150 data row's
threshold cells with oneRepMax 140. -/
theorem claim_C3_witness :
    parseAll ["96 x0.64", "135 x0.9", "184 x1.22", "240 x1.6", "300 x2"] =
      some [96, 135, 184, 240, 300] ∧
    walkRow ["96 x0.64", "135 x0.9", "184 x1.22", "240 x1.6", "300 x2"] 140 =
      some (([96, 135, 184, 240, 300].takeWhile (fun t => decide (t < 140))) ++
        ([96, 135, 184, 240, 300].dropWhile (fun t => decide (t < 140))).take 1) :=
  ⟨rfl, claim_C3 _ _ 140 rfl⟩

/-- Claim C4, counterexample: Python's round() resolves ties to the even
multiple, so bodyWeight 145 rounds to 140 (not 150), and the selected
row index is 3 (the 140 bucket), not the 150 bucket's index 4. -/
theorem claim_C4_counterexample :
    pyRound10 145 = 140 ∧ (140 : Nat) ≠ 150 ∧
    rowIdx 145 = 3 ∧ rowIdx 150 = 4 ∧ (3 : Int) ≠ 4 :=
  ⟨rfl, by decide, rfl, rfl, by decide⟩

/-- Claim C4, amended: the resolver rounds bodyWeight to a nearest
multiple of 10 with ties resolved to the even multiple (round-half-to-
even, Python's round()), not half-away-from-zero, and then uses the
row index (roundedWeight / 10) + 1 - 12. -/
theorem claim_C4_amended (n : Nat) :
    pyRound10 n % 10 = 0 ∧
    (∀ m : Nat, m % 10 = 0 → Nat.dist n (pyRound10 n) ≤ Nat.dist n m) ∧
    (n % 10 = 5 → pyRound10 n / 10 % 2 = 0) ∧
    rowIdx n = ((pyRound10 n / 10 : Nat) : Int) + 1 - 12 := by
  refine ⟨?_, ?_, ?_, rfl⟩
  · unfold pyRound10
    split_ifs <;> omega
  · intro m hm
    unfold pyRound10 Nat.dist
    split_ifs <;> omega
  · intro h5
    unfold pyRound10
    split_ifs <;> omega

/-- Claim C4, witness: 147 rounds to 150 (a multiple of 10 no further
from 147 than the multiple 140 is), and the tie 145 goes to the even
multiple 140. -/
theorem claim_C4_witness :
    pyRound10 147 % 10 = 0 ∧
    Nat.dist 147 (pyRound10 147) ≤ Nat.dist 147 140 ∧
    pyRound10 145 / 10 % 2 = 0 :=
  ⟨(claim_C4_amended 147).1, (claim_C4_amended 147).2.1 140 (by decide),
   (claim_C4_amended 145).2.2.1 (by decide)⟩

/-- Claim C5, counterexample. The code takes int() of the first three
characters of the cell, not the leading maximal digit run: a four-digit
threshold "1000 x2.0" is truncated to 100, and a one-digit threshold
"7 x0.5" fails to parse (int("7 x") is a ValueError) even though its
leading digit run is 7. -/
theorem claim_C5_counterexample :
    parseCell "1000 x2.0" = some 100 ∧
    leadingRunInt "1000 x2.0" = some 1000 ∧
    (100 : Int) ≠ (1000 : Int) ∧
    parseCell "7 x0.5" = none ∧
    leadingRunInt "7 x0.5" = some 7 :=
  ⟨rfl, rfl, by decide, rfl, rfl⟩

/-- Claim C5, amended: the extracted threshold is int() of the cell's
first three characters, so it equals the leading digit run only in
special shapes: when the first three characters are digits the value of
those three digits is extracted (a run of four or more digits is
truncated to its first three); a two-digit run followed by whitespace
(or ending the cell) parses to its value; a one-digit run followed by
whitespace and then a non-whitespace character fails to parse. -/
theorem claim_C5_amended :
    (∀ (s : String) (a b c : Char) (r : List Char),
      s.data = a :: b :: c :: r → isDigitC a = true → isDigitC b = true →
      isDigitC c = true →
      parseCell s = some ((digitsVal [a, b, c] : Nat) : Int)) ∧
    (∀ (s : String) (a b w : Char) (r : List Char),
      s.data = a :: b :: w :: r → isDigitC a = true → isDigitC b = true →
      isSpaceC w = true →
      parseCell s = some ((digitsVal [a, b] : Nat) : Int)) ∧
    (∀ (s : String) (a b : Char),
      s.data = [a, b] → isDigitC a = true → isDigitC b = true →
      parseCell s = some ((digitsVal [a, b] : Nat) : Int)) ∧
    (∀ (s : String) (a w c : Char) (r : List Char),
      s.data = a :: w :: c :: r → isDigitC a = true → isSpaceC w = true →
      isSpaceC c = false →
      parseCell s = none) := by
  refine ⟨?_, ?_, ?_, ?_⟩
  · intro s a b c r hs ha hb hc
    have hna := isDigitC_toNat ha
    unfold parseCell pyIntCore trimL
    rw [hs]
    simp [List.take, List.dropWhile, isDigitC_not_space ha,
      isDigitC_not_space hb, isDigitC_not_space hc, ha, hb, hc,
      if_neg (by omega : ¬ a.toNat = 43), if_neg (by omega : ¬ a.toNat = 45)]
  · intro s a b w r hs ha hb hw
    have hna := isDigitC_toNat ha
    unfold parseCell pyIntCore trimL
    rw [hs]
    simp [List.take, List.dropWhile, isDigitC_not_space ha,
      isDigitC_not_space hb, hw, ha, hb,
      if_neg (by omega : ¬ a.toNat = 43), if_neg (by omega : ¬ a.toNat = 45)]
  · intro s a b hs ha hb
    have hna := isDigitC_toNat ha
    unfold parseCell pyIntCore trimL
    rw [hs]
    simp [List.take, List.dropWhile, isDigitC_not_space ha,
      isDigitC_not_space hb, ha, hb,
      if_neg (by omega : ¬ a.toNat = 43), if_neg (by omega : ¬ a.toNat = 45)]
  · intro s a w c r hs ha hw hc
    have hna := isDigitC_toNat ha
    unfold parseCell pyIntCore trimL
    rw [hs]
    simp [List.take, List.dropWhile, isDigitC_not_space ha, hw, hc, ha,
      isSpaceC_not_digit hw,
      if_neg (by omega : ¬ a.toNat = 43), if_neg (by omega : ¬ a.toNat = 45)]

/-- Claim C5, witness: the amended theorem applied to concrete cells -
a three-digit threshold, a two-digit threshold followed by a space, and
a one-digit threshold whose parse fails. -/
theorem claim_C5_witness :
    parseCell "184 x1.22" = some 184 ∧
    parseCell "96 x0.64" = some 96 ∧
    parseCell "7 x0.5" = none := by
  refine ⟨?_, ?_, ?_⟩
  · exact (claim_C5_amended.1 "184 x1.22" '1' '8' '4' (String.data " x1.22")
      (by decide) (by decide) (by decide) (by decide)).trans (by decide)
  · exact (claim_C5_amended.2.1 "96 x0.64" '9' '6' (Char.ofNat 32)
      (String.data "x0.64") (by decide) (by decide) (by decide)
      (by decide)).trans (by decide)
  · exact claim_C5_amended.2.2.2 "7 x0.5" '7' (Char.ofNat 32) 'x'
      (String.data "0.5") (by decide) (by decide) (by decide) (by decide)

/-- Claim C6, code evaluation at the failing inputs. The code performs
no bounds check: a rounded bodyWeight of 100 gives row index -1, which
Python resolves silently to the last data row (the 310 bucket), and the
call returns ("BW", 224) instead of reporting an out-of-range-weight
error; a rounded bodyWeight of 400 gives row index 29, past the 21 rows
of the table, and the call dies with an uncaught IndexError (modelled
as `none`) instead of a distinct error report. -/
theorem claim_C6_code_eval :
    rowIdx 100 = -1 ∧
    selectRow exMaster 0 100 = some
      ["310", "224 x0.72", "283 x0.91", "351 x1.13", "427 x1.38", "506 x1.63"] ∧
    find_match exMaster 0 100 50 = some ("BW", 224) ∧
    rowIdx 400 = 29 ∧
    exTableM.length = 21 ∧
    find_match exMaster 0 400 50 = none :=
  ⟨rfl, rfl, rfl, rfl, rfl, rfl⟩

/-- Claim C7, confirmed: for a fixed master table, gender index and
bodyWeight, the count of accumulated thresholds (hence the resolved
current-tier index, which is that count minus one) is non-decreasing in
the one-rep max. -/
theorem claim_C7 (mt : List (List (List String))) (gender uw : Nat)
    (m1 m2 : Int) (w1 w2 : List Int) (hm : m1 ≤ m2)
    (h1 : rowWeights mt gender uw m1 = some w1)
    (h2 : rowWeights mt gender uw m2 = some w2) :
    w1.length ≤ w2.length := by
  unfold rowWeights at h1 h2
  cases hrow : selectRow mt gender uw with
  | none => simp [hrow] at h1
  | some row =>
    simp only [hrow, Option.some_bind] at h1 h2
    exact walkRow_len_mono (row.drop 1) hm h1 h2

/-- Claim C7, witness: at the example table with bodyWeight 150, raising
the one-rep max from 140 to 500 grows the accumulated count from 3 to 5. -/
theorem claim_C7_witness :
    [96, 135, 184].length ≤ [96, 135, 184, 240, 300].length :=
  claim_C7 exMaster 0 150 140 500 [96, 135, 184] [96, 135, 184, 240, 300]
    (by decide) rfl rfl

/-- While a cell flag is set, a run of character-data events appends the
stripped fragments, in order, to the cell buffer and changes nothing
else. -/
theorem runEvents_data (sep : String) (frags : List String) (s : PState)
    (h : s.in_td = true ∨ s.in_th = true) :
    runEvents sep s (frags.map HEvent.data) =
      { s with current_cell := s.current_cell ++ frags.map pyStrip } := by
  induction frags generalizing s with
  | nil => simp [runEvents]
  | cons f fs ih =>
    have hstep : stepEvent sep s (HEvent.data f) =
        { s with current_cell := s.current_cell ++ [pyStrip f] } := by
      rcases h with h | h <;> simp [stepEvent, handle_data, h]
    simp only [List.map_cons, runEvents, List.foldl_cons, hstep]
    rw [show (List.foldl (stepEvent sep)
      { s with current_cell := s.current_cell ++ [pyStrip f] }
      (fs.map HEvent.data)) = runEvents sep
      { s with current_cell := s.current_cell ++ [pyStrip f] }
      (fs.map HEvent.data) from rfl]
    rw [ih _ (by rcases h with h | h <;> simp [h])]
    simp

/-- Claim C8, counterexample. The code strips each text fragment as it
is buffered (handle_data, line 49), so a cell containing the fragments
"a ", "x", " b" (text interleaved with a nested tag) is emitted as
"a x b"; the claim's recipe - join the raw fragments with the separator,
then trim - yields "a  x  b" instead. -/
theorem claim_C8_counterexample :
    (runEvents " " initPState
      [HEvent.startTag "table", HEvent.startTag "tr", HEvent.startTag "td",
       HEvent.data "a ", HEvent.startTag "b", HEvent.data "x",
       HEvent.endTag "b", HEvent.data " b", HEvent.endTag "td",
       HEvent.endTag "tr", HEvent.endTag "table"]).tables = [[["a x b"]]] ∧
    specCellText " " ["a ", "x", " b"] = "a  x  b" ∧
    ("a x b" : String) ≠ "a  x  b" :=
  ⟨rfl, rfl, by decide⟩

/-- Claim C8, amended: on closing a cell-type tag (data or header), the
emitted cell is the separator-join of the individually stripped
fragments buffered between the opening and closing tags, trimmed again
as a whole; the cell is a plain string in the row (never absent), the
empty string when the cell had no content. -/
theorem claim_C8_amended (sep : String) (frags : List String) (s : PState)
    (hc : s.current_cell = []) :
    runEvents sep s
        (HEvent.startTag "td" :: frags.map HEvent.data ++ [HEvent.endTag "td"]) =
      { s with in_td := false,
               current_row := s.current_row ++
                 [pyStrip (sepJoin sep (frags.map pyStrip))],
               current_cell := [] } ∧
    runEvents sep s
        (HEvent.startTag "th" :: frags.map HEvent.data ++ [HEvent.endTag "th"]) =
      { s with in_th := false,
               current_row := s.current_row ++
                 [pyStrip (sepJoin sep (frags.map pyStrip))],
               current_cell := [] } := by
  obtain ⟨td, th, ct, cr, cc, tb⟩ := s
  simp only [PState.mk.injEq] at hc
  subst hc
  constructor
  · show runEvents sep _ (HEvent.startTag "td" :: (frags.map HEvent.data ++ [HEvent.endTag "td"])) = _
    rw [show (HEvent.startTag "td" :: (frags.map HEvent.data ++ [HEvent.endTag "td"])) =
      ([HEvent.startTag "td"] ++ frags.map HEvent.data ++ [HEvent.endTag "td"]) by simp]
    unfold runEvents
    rw [List.foldl_append, List.foldl_append]
    rw [show List.foldl (stepEvent sep) ⟨td, th, ct, cr, [], tb⟩ [HEvent.startTag "td"] =
      (⟨true, th, ct, cr, [], tb⟩ : PState) by simp [stepEvent, handle_starttag]]
    rw [show List.foldl (stepEvent sep) (⟨true, th, ct, cr, [], tb⟩ : PState)
        (frags.map HEvent.data) =
      runEvents sep (⟨true, th, ct, cr, [], tb⟩ : PState) (frags.map HEvent.data) from rfl]
    rw [runEvents_data sep frags _ (Or.inl rfl)]
    simp [stepEvent, handle_endtag]
  · show runEvents sep _ (HEvent.startTag "th" :: (frags.map HEvent.data ++ [HEvent.endTag "th"])) = _
    rw [show (HEvent.startTag "th" :: (frags.map HEvent.data ++ [HEvent.endTag "th"])) =
      ([HEvent.startTag "th"] ++ frags.map HEvent.data ++ [HEvent.endTag "th"]) by simp]
    unfold runEvents
    rw [List.foldl_append, List.foldl_append]
    rw [show List.foldl (stepEvent sep) ⟨td, th, ct, cr, [], tb⟩ [HEvent.startTag "th"] =
      (⟨td, true, ct, cr, [], tb⟩ : PState) by simp [stepEvent, handle_starttag]]
    rw [show List.foldl (stepEvent sep) (⟨td, true, ct, cr, [], tb⟩ : PState)
        (frags.map HEvent.data) =
      runEvents sep (⟨td, true, ct, cr, [], tb⟩ : PState) (frags.map HEvent.data) from rfl]
    rw [runEvents_data sep frags _ (Or.inr rfl)]
    simp [stepEvent, handle_endtag]

/-- Claim C8, witness: the amended theorem applied to a concrete cell
with two fragments and the default single-space separator. -/
theorem claim_C8_witness :
    runEvents " " initPState
        (HEvent.startTag "td" :: [" a ", "b "].map HEvent.data ++
          [HEvent.endTag "td"]) =
      (⟨false, false, [], ["a b"], [], []⟩ : PState) :=
  ((claim_C8_amended " " [" a ", "b "] initPState rfl).1).trans (by decide)

/-- Claim C9, counterexample. At the claimed range's upper end the claim
fails: a bodyWeight of 110 rounds to 110 and the computed row index is
110/10 + 1 - 12 = 0, which is not negative - it selects the header row
forwards, and the call then dies parsing the header label "Beg."
(modelled as `none`) instead of silently computing a result. -/
theorem claim_C9_counterexample :
    pyRound10 110 = 110 ∧
    rowIdx 110 = 0 ∧
    ¬ rowIdx 110 < 0 ∧
    selectRow exMaster 0 110 =
      some ["BW", "Beg.", "Nov.", "Int.", "Adv.", "Elite"] ∧
    find_match exMaster 0 110 50 = none :=
  ⟨rfl, rfl, by decide, rfl, rfl⟩

/-- Claim C9, amended: for every bodyWeight whose rounded value r
satisfies 10 ≤ r ≤ 100 (not 110), the row index r/10 + 1 - 12 is
negative, and on any table with at least 12 - r/10 rows the lookup does
not fail: the negative index silently selects the row counted backward
from the end of the table (index -1, from r = 100, selects the last
row). -/
theorem claim_C9_amended (tbl : List (List String)) (uw : Nat)
    (h10 : 10 ≤ pyRound10 uw) (h100 : pyRound10 uw ≤ 100)
    (hlen : 12 - pyRound10 uw / 10 ≤ tbl.length) :
    rowIdx uw < 0 ∧
    pyIndex tbl (rowIdx uw) =
      tbl.get? (tbl.length - (11 - pyRound10 uw / 10)) ∧
    (pyIndex tbl (rowIdx uw)).isSome = true := by
  have hidx : rowIdx uw = ((pyRound10 uw / 10 : Nat) : Int) - 11 := by
    unfold rowIdx; omega
  have hneg : rowIdx uw < 0 := by omega
  have hmain : pyIndex tbl (rowIdx uw) =
      tbl.get? (tbl.length - (11 - pyRound10 uw / 10)) := by
    unfold pyIndex
    rw [if_neg (by omega), if_pos (by omega)]
    congr 1
    omega
  refine ⟨hneg, hmain, ?_⟩
  rw [hmain]
  have hlt : tbl.length - (11 - pyRound10 uw / 10) < tbl.length := by omega
  rw [List.get?_eq_get hlt]
  rfl

/-- Claim C9, witness: bodyWeight 100 on the example table - row index
-1 selects the last row (index 20 of 21) without error. -/
theorem claim_C9_witness :
    rowIdx 100 < 0 ∧
    pyIndex exTableM (rowIdx 100) =
      exTableM.get? (exTableM.length - (11 - pyRound10 100 / 10)) ∧
    (pyIndex exTableM (rowIdx 100)).isSome = true :=
  claim_C9_amended exTableM 100 (by decide) (by decide) (by decide)

/-- Claim C10, confirmed: when the first threshold cell of the selected
row already parses to a value at or above the one-rep max, exactly one
threshold is accumulated, and the label returned as the current tier is
the header row's first cell (the body-weight column heading), not a
tier label. -/
theorem claim_C10 (mt : List (List (List String))) (gender uw : Nat)
    (orm t : Int) (row : List String) (c : String) (rest : List String)
    (h0 : String) (hs : List String)
    (hrow : selectRow mt gender uw = some row)
    (hd : row.drop 1 = c :: rest)
    (hp : parseCell c = some t)
    (hge : orm ≤ t)
    (hh : headerRow mt gender = some (h0 :: hs)) :
    rowWeights mt gender uw orm = some [t] ∧
    find_match mt gender uw orm = some (h0, t) := by
  have hw : rowWeights mt gender uw orm = some [t] := by
    unfold rowWeights
    simp only [hrow, Option.some_bind, hd, walkRow, hp, if_pos hge]
  refine ⟨hw, ?_⟩
  unfold find_match
  simp only [hw, hh]
  simp [pyIndex]

/-- Claim C10, witness: at the example table with bodyWeight 150 and
oneRepMax 50, the first threshold 96 already exceeds the one-rep max
and the returned label is the column heading "BW". -/
theorem claim_C10_witness :
    rowWeights exMaster 0 150 50 = some [96] ∧
    find_match exMaster 0 150 50 = some ("BW", 96) :=
  claim_C10 exMaster 0 150 50 96
    ["150", "96 x0.64", "135 x0.9", "184 x1.22", "240 x1.6", "300 x2"]
    "96 x0.64" ["135 x0.9", "184 x1.22", "240 x1.6", "300 x2"]
    "BW" ["Beg.", "Nov.", "Int.", "Adv.", "Elite"]
    rfl rfl rfl (by decide) rfl
